/-
Verification of the resilience/observability core of n8n-mcp:
circuit breaker (src/core/circuit_breaker.py), rate limiter
(src/core/rate_limiter.py), TTL cache (src/core/cache.py) and
metrics collector (src/core/metrics.py), shallowly embedded in Lean.
Timestamps and latency values (Python floats) are modelled as rationals;
Python dicts are modelled as insertion-ordered association lists and
defaultdict access as lookup-with-default.
-/
import Mathlib

namespace NEightNMcp

/-! ## Circuit breaker (src/core/circuit_breaker.py) -/

/-- Python `CircuitState`: closed (normal), open (blocking), half-open (testing). -/
inductive CircuitState where
  | closed
  | open
  | halfOpen
  deriving DecidableEq, Repr

/-- Mutable and configuration state of `CircuitBreaker`.
Configuration fields (`serviceName`, `failureThreshold`, `recoveryTimeout`,
`successThreshold`) are never written by `call`/`reset`. -/
structure CircuitBreaker where
  serviceName : String
  failureThreshold : Nat
  recoveryTimeout : ℚ
  successThreshold : Nat
  state : CircuitState
  failureCount : Nat
  successCount : Nat
  lastFailureTime : ℚ
  deriving DecidableEq, Repr

/-- Python `CircuitBreaker.__init__` body after validation: state CLOSED, counters 0. -/
def CircuitBreaker.mk0 (serviceName : String) (failureThreshold : Nat)
    (recoveryTimeout : ℚ) (successThreshold : Nat) : CircuitBreaker :=
  { serviceName := serviceName
    failureThreshold := failureThreshold
    recoveryTimeout := recoveryTimeout
    successThreshold := successThreshold
    state := .closed
    failureCount := 0
    successCount := 0
    lastFailureTime := 0 }

/-- Python `CircuitBreaker._should_attempt_reset`: state is OPEN and
`now - last_failure_time >= recovery_timeout`. -/
def CircuitBreaker.shouldAttemptReset (cb : CircuitBreaker) (now : ℚ) : Bool :=
  decide (cb.state = .open) && decide (cb.recoveryTimeout ≤ now - cb.lastFailureTime)

/-- The recovery-attempt step at the top of `CircuitBreaker.call`: if the
reset is due, move to HALF_OPEN and zero `success_count`. -/
def CircuitBreaker.promoteIfDue (cb : CircuitBreaker) (now : ℚ) : CircuitBreaker :=
  if cb.shouldAttemptReset now then
    { cb with state := .halfOpen, successCount := 0 }
  else cb

/-- Python `CircuitBreaker._on_success`. -/
def CircuitBreaker.onSuccess (cb : CircuitBreaker) : CircuitBreaker :=
  if cb.state = .halfOpen then
    if cb.successThreshold ≤ cb.successCount + 1 then
      { cb with state := .closed, failureCount := 0, successCount := 0 }
    else
      { cb with successCount := cb.successCount + 1 }
  else if cb.state = .closed then
    { cb with failureCount := 0 }
  else cb

/-- Python `CircuitBreaker._on_failure`: bump `failure_count`, stamp
`last_failure_time`, then transition depending on the (unchanged) state;
the threshold test compares against the already incremented count. -/
def CircuitBreaker.onFailure (cb : CircuitBreaker) (now : ℚ) : CircuitBreaker :=
  if cb.state = .halfOpen then
    { cb with failureCount := cb.failureCount + 1, lastFailureTime := now,
              state := .open, successCount := 0 }
  else if cb.state = .closed ∧ cb.failureThreshold ≤ cb.failureCount + 1 then
    { cb with failureCount := cb.failureCount + 1, lastFailureTime := now,
              state := .open }
  else
    { cb with failureCount := cb.failureCount + 1, lastFailureTime := now }

/-- Outcome of one `CircuitBreaker.call`: rejected by the open gate
(`CircuitBreakerOpen(service_name)`), returned normally, or the wrapped
operation's own error re-raised. -/
inductive CallResult (α ε : Type) where
  | rejected (serviceName : String)
  | ok (v : α)
  | raised (e : ε)
  deriving DecidableEq, Repr

/-- Python `CircuitBreaker.call`. The wrapped operation is modelled by its outcome
`outcome : Except ε α`; the clock read `time.time()` is the parameter `now`. -/
def CircuitBreaker.call (cb : CircuitBreaker) (now : ℚ) (outcome : Except ε α) :
    CallResult α ε × CircuitBreaker :=
  if (cb.promoteIfDue now).state = .open then
    (.rejected (cb.promoteIfDue now).serviceName, cb.promoteIfDue now)
  else
    match outcome with
    | .ok v => (.ok v, (cb.promoteIfDue now).onSuccess)
    | .error e => (.raised e, (cb.promoteIfDue now).onFailure now)

/-- Python `CircuitBreaker.reset`. -/
def CircuitBreaker.reset (cb : CircuitBreaker) : CircuitBreaker :=
  { cb with state := .closed, failureCount := 0, successCount := 0, lastFailureTime := 0 }

/-- One externally visible circuit-breaker operation. -/
inductive CBOp (α ε : Type) where
  | call (now : ℚ) (outcome : Except ε α)
  | reset

/-- Apply one operation to a breaker, keeping only the state. -/
def CircuitBreaker.applyOp (cb : CircuitBreaker) : CBOp α ε → CircuitBreaker
  | .call now outcome => (cb.call now outcome).2
  | .reset => cb.reset

/-- Run a sequence of operations. -/
def CircuitBreaker.run (cb : CircuitBreaker) : List (CBOp α ε) → CircuitBreaker
  | [] => cb
  | op :: ops => (cb.applyOp op).run ops

/-- The counter/state invariant of the breaker: in CLOSED the failure
counter is strictly below its threshold, in HALF_OPEN the success counter
is strictly below its threshold. -/
abbrev CircuitBreaker.Inv (cb : CircuitBreaker) : Prop :=
  (cb.state = .closed → cb.failureCount < cb.failureThreshold) ∧
  (cb.state = .halfOpen → cb.successCount < cb.successThreshold)

/-- The invariant together with the constructor-validated positivity of the
two thresholds (`__init__` rejects non-positive thresholds). -/
abbrev CircuitBreaker.Good (cb : CircuitBreaker) : Prop :=
  0 < cb.failureThreshold ∧ 0 < cb.successThreshold ∧ cb.Inv

lemma CircuitBreaker.good_promoteIfDue {cb : CircuitBreaker} {now : ℚ}
    (h : cb.Good) : (cb.promoteIfDue now).Good := by
  obtain ⟨hft, hst, hc, hh⟩ := h
  unfold CircuitBreaker.promoteIfDue
  split_ifs with h1
  · exact ⟨hft, hst, And.intro (fun hx => nomatch hx) (fun _ => hst)⟩
  · exact ⟨hft, hst, And.intro hc hh⟩

lemma CircuitBreaker.good_onSuccess {cb : CircuitBreaker}
    (h : cb.Good) : cb.onSuccess.Good := by
  obtain ⟨hft, hst, hc, hh⟩ := h
  unfold CircuitBreaker.onSuccess
  split_ifs with h1 h2 h3
  · exact ⟨hft, hst, And.intro (fun _ => hft) (fun hx => nomatch hx)⟩
  · refine ⟨hft, hst, And.intro (fun hx => ?_) (fun _ => ?_)⟩
    · have hx' : cb.state = CircuitState.closed := hx
      rw [h1] at hx'
      exact nomatch hx'
    · show cb.successCount + 1 < cb.successThreshold
      omega
  · exact ⟨hft, hst, And.intro (fun _ => hft)
      (fun hx => absurd (show cb.state = CircuitState.halfOpen from hx) h1)⟩
  · exact ⟨hft, hst, And.intro hc hh⟩

lemma CircuitBreaker.good_onFailure {cb : CircuitBreaker} {now : ℚ}
    (h : cb.Good) : (cb.onFailure now).Good := by
  obtain ⟨hft, hst, hc, hh⟩ := h
  unfold CircuitBreaker.onFailure
  split_ifs with h1 h2
  · exact ⟨hft, hst, And.intro (fun hx => nomatch hx) (fun hx => nomatch hx)⟩
  · exact ⟨hft, hst, And.intro (fun hx => nomatch hx) (fun hx => nomatch hx)⟩
  · refine ⟨hft, hst, And.intro (fun hx => ?_)
      (fun hx => absurd (show cb.state = CircuitState.halfOpen from hx) h1)⟩
    have hx' : cb.state = CircuitState.closed := hx
    rcases not_and_or.mp h2 with h3 | h3
    · exact absurd hx' h3
    · show cb.failureCount + 1 < cb.failureThreshold
      omega

lemma CircuitBreaker.good_reset {cb : CircuitBreaker}
    (h : cb.Good) : cb.reset.Good :=
  ⟨h.1, h.2.1, And.intro (fun _ => h.1) (fun hx => nomatch hx)⟩

lemma CircuitBreaker.good_applyOp {cb : CircuitBreaker} {op : CBOp α ε}
    (h : cb.Good) : (cb.applyOp op).Good := by
  cases op with
  | reset => exact CircuitBreaker.good_reset h
  | call now outcome =>
    show ((cb.call now outcome).2).Good
    unfold CircuitBreaker.call
    split_ifs with h1
    · exact cb.good_promoteIfDue h
    · cases outcome with
      | ok v => exact CircuitBreaker.good_onSuccess (cb.good_promoteIfDue h)
      | error e => exact CircuitBreaker.good_onFailure (cb.good_promoteIfDue h)

lemma CircuitBreaker.good_run {cb : CircuitBreaker} (ops : List (CBOp α ε))
    (h : cb.Good) : (cb.run ops).Good := by
  induction ops generalizing cb with
  | nil => exact h
  | cons op ops ih => exact ih (CircuitBreaker.good_applyOp h)

/-- C2: a stale-open breaker self-promotes before the open gate — when the
state is Open and `now - last_failure_time >= recovery_timeout`, `call`
first moves the breaker to HalfOpen with `success_count = 0`, the open-gate
rejection never fires, and the wrapped operation is invoked on that very
call (its outcome is returned or re-raised, never rejected). -/
theorem circuit_stale_open_self_promotes {α ε : Type}
    (cb : CircuitBreaker) (now : ℚ) (outcome : Except ε α)
    (hopen : cb.state = .open)
    (hdue : cb.recoveryTimeout ≤ now - cb.lastFailureTime) :
    cb.promoteIfDue now = { cb with state := .halfOpen, successCount := 0 } ∧
    (cb.promoteIfDue now).state = .halfOpen ∧
    (cb.promoteIfDue now).successCount = 0 ∧
    (∀ s, (cb.call now outcome).1 ≠ CallResult.rejected s) ∧
    cb.call now outcome =
      (match outcome with
       | .ok v => (.ok v, (cb.promoteIfDue now).onSuccess)
       | .error e => (.raised e, (cb.promoteIfDue now).onFailure now)) := by
  have hs : cb.shouldAttemptReset now = true := by
    simp [CircuitBreaker.shouldAttemptReset, hopen, hdue]
  have hp : cb.promoteIfDue now = { cb with state := .halfOpen, successCount := 0 } := by
    simp [CircuitBreaker.promoteIfDue, hs]
  refine ⟨hp, by rw [hp], by rw [hp], ?_, ?_⟩
  · intro s
    cases outcome <;> simp [CircuitBreaker.call, hp]
  · cases outcome <;> simp [CircuitBreaker.call, hp]

/-- C2 witness at a concrete stale-open breaker. -/
theorem circuit_stale_open_self_promotes_witness :
    (CircuitBreaker.mk "svc" 2 10 2 .open 2 0 100).state = .open ∧
    (10 : ℚ) ≤ 111 - 100 ∧
    ((CircuitBreaker.mk "svc" 2 10 2 .open 2 0 100).call 111
        (Except.ok (0 : Nat) : Except Unit Nat)).1 ≠ CallResult.rejected "svc" :=
  ⟨rfl, by norm_num,
    (circuit_stale_open_self_promotes (CircuitBreaker.mk "svc" 2 10 2 .open 2 0 100)
      111 (Except.ok 0) rfl (by norm_num)).2.2.2.1 "svc"⟩

/-- C3: a non-stale Open breaker rejects — when the state is Open and
`now - last_failure_time < recovery_timeout`, `call` returns the
circuit-open error carrying the service name, the wrapped operation is
never invoked, and the breaker is returned completely unchanged. -/
theorem circuit_open_rejects_unchanged {α ε : Type}
    (cb : CircuitBreaker) (now : ℚ) (outcome : Except ε α)
    (hopen : cb.state = .open)
    (hnotdue : now - cb.lastFailureTime < cb.recoveryTimeout) :
    cb.call now outcome = (.rejected cb.serviceName, cb) := by
  have hs : cb.shouldAttemptReset now = false := by
    simp [CircuitBreaker.shouldAttemptReset, hopen]
    exact hnotdue
  have hp : cb.promoteIfDue now = cb := by
    simp [CircuitBreaker.promoteIfDue, hs]
  simp [CircuitBreaker.call, hp, hopen]

/-- C3 witness at a concrete fresh-open breaker. -/
theorem circuit_open_rejects_unchanged_witness :
    (CircuitBreaker.mk "svc" 2 10 2 .open 2 0 100).call 105
        (Except.ok (0 : Nat) : Except Unit Nat) =
      (.rejected "svc", CircuitBreaker.mk "svc" 2 10 2 .open 2 0 100) :=
  circuit_open_rejects_unchanged (CircuitBreaker.mk "svc" 2 10 2 .open 2 0 100)
    105 (Except.ok 0) rfl (by norm_num)

/-- C4: failure bookkeeping — whenever the wrapped operation is invoked
(the post-promotion state is not Open) and fails with error `e`, `call`
re-raises exactly `e`, increments `failure_count`, stamps
`last_failure_time = now`; from HalfOpen it reopens with `success_count`
reset to 0, and from Closed it opens exactly when the incremented count
reaches `failure_threshold`. -/
theorem circuit_failure_bookkeeping {α ε : Type}
    (cb : CircuitBreaker) (now : ℚ) (e : ε)
    (hrun : (cb.promoteIfDue now).state ≠ .open) :
    (cb.call now (Except.error e : Except ε α)).1 = CallResult.raised e ∧
    ((cb.call now (Except.error e : Except ε α)).2).failureCount
      = (cb.promoteIfDue now).failureCount + 1 ∧
    ((cb.call now (Except.error e : Except ε α)).2).lastFailureTime = now ∧
    ((cb.promoteIfDue now).state = .halfOpen →
      ((cb.call now (Except.error e : Except ε α)).2).state = .open ∧
      ((cb.call now (Except.error e : Except ε α)).2).successCount = 0) ∧
    ((cb.promoteIfDue now).state = .closed →
      (((cb.promoteIfDue now).failureThreshold ≤ (cb.promoteIfDue now).failureCount + 1 →
        ((cb.call now (Except.error e : Except ε α)).2).state = .open) ∧
       ((cb.promoteIfDue now).failureCount + 1 < (cb.promoteIfDue now).failureThreshold →
        ((cb.call now (Except.error e : Except ε α)).2).state = .closed))) := by
  have hcall : cb.call now (Except.error e : Except ε α)
      = (.raised e, (cb.promoteIfDue now).onFailure now) := by
    unfold CircuitBreaker.call
    split_ifs with h1
    · exact absurd h1 hrun
    · rfl
  rw [hcall]
  refine ⟨rfl, ?_, ?_, ?_, ?_⟩
  · unfold CircuitBreaker.onFailure
    split_ifs <;> rfl
  · unfold CircuitBreaker.onFailure
    split_ifs <;> rfl
  · intro hh
    unfold CircuitBreaker.onFailure
    split_ifs
    exact ⟨rfl, rfl⟩
  · intro hc
    refine ⟨fun hth => ?_, fun hth => ?_⟩
    · unfold CircuitBreaker.onFailure
      split_ifs with h1 h2
      · exact nomatch hc.symm.trans h1
      · rfl
      · exact absurd ⟨hc, hth⟩ h2
    · unfold CircuitBreaker.onFailure
      split_ifs with h1 h2
      · exact nomatch hc.symm.trans h1
      · have := h2.2
        omega
      · exact hc

/-- C4 witness: a closed breaker one failure below threshold opens on a
failing call, re-raising the error. -/
theorem circuit_failure_bookkeeping_witness :
    ((CircuitBreaker.mk "svc" 2 10 2 .closed 1 0 0).promoteIfDue 5).state ≠ .open ∧
    ((CircuitBreaker.mk "svc" 2 10 2 .closed 1 0 0).call 5
        (Except.error () : Except Unit Nat)).1 = CallResult.raised () ∧
    (((CircuitBreaker.mk "svc" 2 10 2 .closed 1 0 0).call 5
        (Except.error () : Except Unit Nat)).2).state = .open :=
  have h := circuit_failure_bookkeeping (α := Nat)
    (CircuitBreaker.mk "svc" 2 10 2 .closed 1 0 0) 5 () (by decide)
  ⟨by decide, h.1, (h.2.2.2.2 (by decide)).1 (by decide)⟩

/-- C10: every sequence of `call` and `reset` operations preserves the
invariant that a CLOSED breaker has `failure_count < failure_threshold`
and a HALF_OPEN breaker has `success_count < success_threshold`, given the
constructor-validated positive thresholds. -/
theorem circuit_breaker_invariant_preserved {α ε : Type}
    (cb : CircuitBreaker) (ops : List (CBOp α ε))
    (hft : 0 < cb.failureThreshold) (hst : 0 < cb.successThreshold)
    (hinv : cb.Inv) : (cb.run ops).Inv :=
  (CircuitBreaker.good_run ops ⟨hft, hst, hinv⟩).2.2

/-- C10 witness: running a concrete operation sequence from a fresh breaker
keeps the invariant. -/
theorem circuit_breaker_invariant_preserved_witness :
    ((CircuitBreaker.mk0 "svc" 2 10 2).run
      [CBOp.call 0 (Except.error () : Except Unit Nat), CBOp.call 1 (Except.error ()),
       CBOp.call 20 (Except.ok 7), CBOp.reset]).Inv :=
  circuit_breaker_invariant_preserved (CircuitBreaker.mk0 "svc" 2 10 2) _
    (by decide) (by decide) (by constructor <;> intro h <;> simp [CircuitBreaker.mk0] at h ⊢)

/-! ## Rate limiter (src/core/rate_limiter.py) -/

/-- Python `RateLimiter` state: the per-actor timestamp buckets
(`defaultdict(deque)`, so an absent actor reads as the empty bucket). -/
structure RateLimiter where
  maxPerMinute : Nat
  buckets : String → List ℚ

/-- Python `RateLimiter.__init__` body after validation: empty buckets. -/
def RateLimiter.mk0 (maxPerMinute : Nat) : RateLimiter :=
  { maxPerMinute := maxPerMinute, buckets := fun _ => [] }

/-- In-place mutation of one actor's bucket. -/
def RateLimiter.setBucket (rl : RateLimiter) (actor : String) (b : List ℚ) :
    RateLimiter :=
  { rl with buckets := Function.update rl.buckets actor b }

/-- The eviction loop in `RateLimiter.check`:
`while bucket and bucket[0] < window_start: bucket.popleft()`. -/
def trimOld (windowStart : ℚ) : List ℚ → List ℚ
  | [] => []
  | t :: rest => if t < windowStart then trimOld windowStart rest else t :: rest

/-- Python `RateLimiter.check`: trim stale timestamps from the front of the
actor's bucket, then reject (`RateLimitExceeded`) without recording the
attempt if the remaining count is at the limit, else record `now` and
succeed. The trim persists even on rejection (the deque is mutated in
place before the raise). -/
def RateLimiter.check (rl : RateLimiter) (actor : String) (now : ℚ) :
    Except String Unit × RateLimiter :=
  if rl.maxPerMinute ≤ (trimOld (now - 60) (rl.buckets actor)).length then
    (.error "rate_limit_exceeded",
      rl.setBucket actor (trimOld (now - 60) (rl.buckets actor)))
  else
    (.ok (),
      rl.setBucket actor (trimOld (now - 60) (rl.buckets actor) ++ [now]))

/-- Run `check` over a list of call times for one actor, recording which
calls succeed. -/
def RateLimiter.checkSeq (rl : RateLimiter) (actor : String) :
    List ℚ → List Bool × RateLimiter
  | [] => ([], rl)
  | t :: ts =>
    ((rl.check actor t).1.isOk :: (((rl.check actor t).2).checkSeq actor ts).1,
      (((rl.check actor t).2).checkSeq actor ts).2)

lemma setBucket_buckets (rl : RateLimiter) (actor : String) (b : List ℚ) :
    (rl.setBucket actor b).buckets actor = b := by
  simp [RateLimiter.setBucket]

lemma trimOld_eq_dropWhile (ws : ℚ) (l : List ℚ) :
    trimOld ws l = l.dropWhile (fun t => decide (t < ws)) := by
  induction l with
  | nil => rfl
  | cons t rest ih =>
    unfold trimOld
    rw [List.dropWhile_cons]
    by_cases h : t < ws
    · rw [if_pos h, if_pos (decide_eq_true h), ih]
    · rw [if_neg h, if_neg (by simpa using h)]

lemma trimOld_length_le (ws : ℚ) (l : List ℚ) :
    (trimOld ws l).length ≤ l.length := by
  induction l with
  | nil => exact Nat.le_refl 0
  | cons t rest ih =>
    unfold trimOld
    split_ifs with h
    · exact Nat.le_succ_of_le ih
    · exact Nat.le_refl _

lemma trimOld_of_fresh {ws : ℚ} {l : List ℚ} (h : ∀ x ∈ l, ws ≤ x) :
    trimOld ws l = l := by
  cases l with
  | nil => rfl
  | cons t rest =>
    unfold trimOld
    rw [if_neg (not_lt.mpr (h t (List.mem_cons_self t rest)))]

/-- Auxiliary induction for the sliding-window property: starting from a
bucket `pre` whose entries, like all the upcoming call times, are within
60 seconds of every upcoming call, the successes are exactly the first
`maxPerMinute - pre.length` calls. -/
lemma checkSeq_within_window (actor : String) :
    ∀ (ts : List ℚ) (rl : RateLimiter) (pre : List ℚ),
      rl.buckets actor = pre →
      (∀ y ∈ ts, ∀ x ∈ pre ++ ts, y - 60 ≤ x) →
      (rl.checkSeq actor ts).1
        = List.replicate (min ts.length (rl.maxPerMinute - pre.length)) true
          ++ List.replicate (ts.length - (rl.maxPerMinute - pre.length)) false := by
  intro ts
  induction ts with
  | nil => intro rl pre _ _; simp [RateLimiter.checkSeq]
  | cons y rest ih =>
    intro rl pre hpre hwin
    have hfresh : ∀ x ∈ pre, y - 60 ≤ x := by
      intro x hx
      exact hwin y (List.mem_cons_self y rest) x (List.mem_append_left (y :: rest) hx)
    have htrim : trimOld (y - 60) (rl.buckets actor) = pre := by
      rw [hpre]
      exact trimOld_of_fresh (by simpa using hfresh)
    by_cases hfull : rl.maxPerMinute ≤ pre.length
    · have hchk : rl.check actor y
          = (.error "rate_limit_exceeded", rl.setBucket actor pre) := by
        unfold RateLimiter.check
        rw [htrim, if_pos hfull]
    
      have hrec := ih (rl.setBucket actor pre) pre (setBucket_buckets rl actor pre) (by
        intro y' hy' x hx
        refine hwin y' (List.mem_cons_of_mem y hy') x ?_
        rcases List.mem_append.mp hx with hx | hx
        · exact List.mem_append_left _ hx
        · exact List.mem_append_right _ (List.mem_cons_of_mem y hx))
      unfold RateLimiter.checkSeq
      rw [hchk, hrec]
      have h0 : rl.maxPerMinute - pre.length = 0 := Nat.sub_eq_zero_of_le hfull
      have hmax : (rl.setBucket actor pre).maxPerMinute = rl.maxPerMinute := rfl
      rw [hmax, h0]
      simp [Except.isOk, Except.toBool, List.replicate_succ]
    · push_neg at hfull
      have hchk : rl.check actor y
          = (.ok (), rl.setBucket actor (pre ++ [y])) := by
        unfold RateLimiter.check
        rw [htrim, if_neg (not_le.mpr hfull)]
      have hrec := ih (rl.setBucket actor (pre ++ [y])) (pre ++ [y])
        (setBucket_buckets rl actor (pre ++ [y])) (by
        intro y' hy' x hx
        refine hwin y' (List.mem_cons_of_mem y hy') x ?_
        rcases List.mem_append.mp hx with hx | hx
        · rcases List.mem_append.mp hx with hx | hx
          · exact List.mem_append_left _ hx
          · simp only [List.mem_singleton] at hx
            exact List.mem_append_right _ (hx ▸ List.mem_cons_self y rest)
        · exact List.mem_append_right _ (List.mem_cons_of_mem y hx))
      unfold RateLimiter.checkSeq
      rw [hchk, hrec]
      have hk : ∃ k, rl.maxPerMinute - pre.length = k + 1 :=
        ⟨rl.maxPerMinute - pre.length - 1, by omega⟩
      obtain ⟨k, hk⟩ := hk
      have hmax : (rl.setBucket actor (pre ++ [y])).maxPerMinute = rl.maxPerMinute := rfl
      have hk' : rl.maxPerMinute - (pre ++ [y]).length = k := by
        simp only [List.length_append, List.length_singleton]
        omega
      rw [hmax, hk, hk']
      have hmin : min (rest.length + 1) (k + 1) = min rest.length k + 1 := by omega
      have hsub : rest.length + 1 - (k + 1) = rest.length - k := by omega
      simp only [List.length_cons, hmin, hsub, List.replicate_succ, List.cons_append]
      rfl

/-- C5: the sliding-window rate limiter. (i) `check` trims exactly the
maximal stale front segment (every timestamp older than `now - 60`);
(ii) with at least `max_per_minute` timestamps left it rejects with the
rate-limit error and records nothing beyond the trim; (iii) otherwise it
appends `now` and succeeds; (iv) from an empty bucket, of
`max_per_minute + 1` calls all lying within a common 60-second span,
exactly the first `max_per_minute` succeed and the last fails; (v) once a
full bucket's oldest entry has aged past 60 seconds, one more call
succeeds. -/
theorem rate_limiter_sliding_window :
    (∀ (rl : RateLimiter) (actor : String) (now : ℚ),
      trimOld (now - 60) (rl.buckets actor)
        = (rl.buckets actor).dropWhile (fun t => decide (t < now - 60))) ∧
    (∀ (rl : RateLimiter) (actor : String) (now : ℚ),
      rl.maxPerMinute ≤ (trimOld (now - 60) (rl.buckets actor)).length →
      rl.check actor now = (.error "rate_limit_exceeded",
        rl.setBucket actor (trimOld (now - 60) (rl.buckets actor)))) ∧
    (∀ (rl : RateLimiter) (actor : String) (now : ℚ),
      (trimOld (now - 60) (rl.buckets actor)).length < rl.maxPerMinute →
      rl.check actor now = (.ok (),
        rl.setBucket actor (trimOld (now - 60) (rl.buckets actor) ++ [now]))) ∧
    (∀ (rl : RateLimiter) (actor : String) (ts : List ℚ),
      rl.buckets actor = [] →
      ts.length = rl.maxPerMinute + 1 →
      (∀ y ∈ ts, ∀ x ∈ ts, y - 60 ≤ x) →
      (rl.checkSeq actor ts).1 = List.replicate rl.maxPerMinute true ++ [false]) ∧
    (∀ (rl : RateLimiter) (actor : String) (now t0 : ℚ) (rest : List ℚ),
      rl.buckets actor = t0 :: rest →
      (t0 :: rest).length = rl.maxPerMinute →
      t0 < now - 60 →
      (rl.check actor now).1.isOk = true) := by
  refine ⟨fun rl actor now => trimOld_eq_dropWhile _ _, ?_, ?_, ?_, ?_⟩
  · intro rl actor now h
    unfold RateLimiter.check
    rw [if_pos h]
  · intro rl actor now h
    unfold RateLimiter.check
    rw [if_neg (not_le.mpr h)]
  · intro rl actor ts hempty hlen hwin
    have haux := checkSeq_within_window actor ts rl [] hempty (by simpa using hwin)
    rw [haux, hlen]
    simp
  · intro rl actor now t0 rest hbucket hlen hold
    have hlt : (trimOld (now - 60) (rl.buckets actor)).length < rl.maxPerMinute := by
      rw [hbucket]
      unfold trimOld
      rw [if_pos hold]
      have := trimOld_length_le (now - 60) rest
      simp only [List.length_cons] at hlen
      omega
    unfold RateLimiter.check
    rw [if_neg (not_le.mpr hlt)]
    rfl

/-- C5 witness: with `max_per_minute = 2`, three calls at times 0, 1, 2
give success, success, failure; and a full bucket whose oldest entry has
aged out admits one more call. -/
theorem rate_limiter_sliding_window_witness :
    ((RateLimiter.mk0 2).checkSeq "alice" [0, 1, 2]).1
        = List.replicate 2 true ++ [false] ∧
    (({ maxPerMinute := 2,
        buckets := fun a => if a = "alice" then [0, 50] else [] } :
          RateLimiter).check "alice" 70).1.isOk = true :=
  ⟨rate_limiter_sliding_window.2.2.2.1 (RateLimiter.mk0 2) "alice" [0, 1, 2]
      rfl rfl (by intro y hy x hx; fin_cases hy <;> fin_cases hx <;> norm_num),
   rate_limiter_sliding_window.2.2.2.2
      { maxPerMinute := 2, buckets := fun a => if a = "alice" then [0, 50] else [] }
      "alice" 70 0 [50] (by simp) rfl (by norm_num)⟩

/-! ## TTL cache (src/core/cache.py) -/

/-- Python `CacheEntry`: a value with its absolute expiry timestamp
(`expiry = time.time() + ttl` at creation). -/
structure CacheEntry (α : Type) where
  value : α
  expiry : ℚ

/-- Python `CacheEntry.is_expired`: `time.time() > self.expiry`. -/
def CacheEntry.isExpired (e : CacheEntry α) (now : ℚ) : Bool :=
  decide (e.expiry < now)

/-- Python `SimpleCache` state: the default TTL and the key→entry dict
(insertion-ordered association list). -/
structure SimpleCache (α : Type) where
  defaultTtl : ℚ
  cache : List (String × CacheEntry α)

/-- Dict read `self._cache.get(key)`. -/
def lookupEntry : List (String × CacheEntry α) → String → Option (CacheEntry α)
  | [], _ => none
  | (k', e) :: rest, k => if k = k' then some e else lookupEntry rest k

/-- Dict removal `del self._cache[key]` (keys are unique in a dict, so
removing the first match suffices). -/
def removeKey : List (String × CacheEntry α) → String → List (String × CacheEntry α)
  | [], _ => []
  | (k', e) :: rest, k => if k = k' then rest else (k', e) :: removeKey rest k

/-- Python `SimpleCache.get`: absent key gives `None`; an expired entry is deleted
as a side effect and gives `None`; otherwise the stored value is returned. -/
def SimpleCache.get (c : SimpleCache α) (key : String) (now : ℚ) :
    Option α × SimpleCache α :=
  match lookupEntry c.cache key with
  | none => (none, c)
  | some e =>
    if e.isExpired now then
      (none, { c with cache := removeKey c.cache key })
    else
      (some e.value, c)

/-- Python `SimpleCache.clear`. -/
def SimpleCache.clear (c : SimpleCache α) : SimpleCache α :=
  { c with cache := [] }

/-- C6: `get` never returns an expired entry's value — any `some v` result
comes from a stored entry with `¬(now > expiry)`; an absent key returns
`None` with the cache untouched; an expired key returns `None` and removes
exactly that entry. -/
theorem cache_get_never_returns_expired {α : Type}
    (c : SimpleCache α) (key : String) (now : ℚ) :
    (∀ v : α, (c.get key now).1 = some v →
      ∃ e, lookupEntry c.cache key = some e ∧ e.value = v ∧ ¬ e.expiry < now) ∧
    (lookupEntry c.cache key = none → c.get key now = (none, c)) ∧
    (∀ e, lookupEntry c.cache key = some e → e.expiry < now →
      c.get key now = (none, { c with cache := removeKey c.cache key })) := by
  refine ⟨?_, ?_, ?_⟩
  · intro v hv
    unfold SimpleCache.get at hv
    cases hlk : lookupEntry c.cache key with
    | none => simp [hlk] at hv
    | some e =>
      simp only [hlk] at hv
      by_cases hex : e.isExpired now
      · rw [if_pos hex] at hv
        simp at hv
      · rw [if_neg hex] at hv
        simp only [CacheEntry.isExpired, decide_eq_true_eq] at hex
        refine ⟨e, rfl, ?_, hex⟩
        simpa using hv
  · intro hlk
    unfold SimpleCache.get
    simp only [hlk]
  · intro e hlk hex
    unfold SimpleCache.get
    simp only [hlk]
    rw [if_pos (by simpa [CacheEntry.isExpired] using hex)]

/-- C6 witness: a concrete cache holding an entry that expired at time 100,
read at time 200 (entry removed) and under an absent key. -/
theorem cache_get_never_returns_expired_witness :
    (SimpleCache.mk 3600 [("k", CacheEntry.mk 7 100)] : SimpleCache Nat).get "k" 200
      = (none, SimpleCache.mk 3600 (removeKey [("k", CacheEntry.mk 7 100)] "k")) ∧
    (SimpleCache.mk 3600 [("k", CacheEntry.mk 7 100)] : SimpleCache Nat).get "nope" 200
      = (none, SimpleCache.mk 3600 [("k", CacheEntry.mk 7 100)]) :=
  ⟨(cache_get_never_returns_expired _ "k" 200).2.2 (CacheEntry.mk 7 100) rfl
      (by norm_num),
   (cache_get_never_returns_expired _ "nope" 200).2.1 rfl⟩

/-! ## Metrics collector (src/core/metrics.py) -/

/-- Python `defaultdict(int)` increment `d[k] += 1`: bump the existing entry in
place, or append a fresh entry with count 1. -/
def bump : List (String × Nat) → String → List (String × Nat)
  | [], k => [(k, 1)]
  | (k', v) :: rest, k =>
    if k = k' then (k', v + 1) :: rest else (k', v) :: bump rest k

/-- Python `dict.get(k, 0)`. -/
def getCount : List (String × Nat) → String → Nat
  | [], _ => 0
  | (k', v) :: rest, k => if k = k' then v else getCount rest k

/-- Python `sum(d.values())`. -/
def sumCounts (l : List (String × Nat)) : Nat :=
  (l.map Prod.snd).sum

/-- Python `deque(maxlen=cap).append(x)`: when full, the oldest (leftmost) element
is dropped. -/
def pushCap (cap : Nat) (l : List ℚ) (x : ℚ) : List ℚ :=
  if cap ≤ l.length then l.tail ++ [x] else l ++ [x]

/-- Python `defaultdict(lambda: deque(maxlen=cap))` append `d[k].append(x)`. -/
def pushSample (cap : Nat) : List (String × List ℚ) → String → ℚ → List (String × List ℚ)
  | [], k, x => [(k, pushCap cap [] x)]
  | (k', v) :: rest, k, x =>
    if k = k' then (k', pushCap cap v x) :: rest else (k', v) :: pushSample cap rest k x

/-- Python `dict.get(k, deque())` for the sample dicts. -/
def getSamples : List (String × List ℚ) → String → List ℚ
  | [], _ => []
  | (k', v) :: rest, k => if k = k' then v else getSamples rest k

/-- Python `MetricsCollector` state (src/core/metrics.py `__init__`). -/
structure MetricsState where
  windowSeconds : ℚ
  requestCounts : List (String × Nat)
  errorCounts : List (String × Nat)
  cacheHits : Nat
  cacheMisses : Nat
  requestTimes : List (String × List ℚ)
  latencySamples : List (String × List ℚ)
  stateChanges : List (ℚ × String × String × String)
  startTime : ℚ

/-- Python `MetricsCollector.__init__`. -/
def MetricsState.init (windowSeconds t0 : ℚ) : MetricsState :=
  ⟨windowSeconds, [], [], 0, 0, [], [], [], t0⟩

/-- Python `MetricsCollector.record_request`. -/
def MetricsState.recordRequest (m : MetricsState) (op : String)
    (latencyMs : ℚ) (error : Bool) (now : ℚ) : MetricsState :=
  { m with
    requestCounts := bump m.requestCounts op
    errorCounts := if error then bump m.errorCounts op else m.errorCounts
    requestTimes := pushSample 1000 m.requestTimes op now
    latencySamples := pushSample 100 m.latencySamples op latencyMs }

/-- Python `MetricsCollector.record_cache_hit`. -/
def MetricsState.recordCacheHit (m : MetricsState) : MetricsState :=
  { m with cacheHits := m.cacheHits + 1 }

/-- Python `MetricsCollector.record_cache_miss`. -/
def MetricsState.recordCacheMiss (m : MetricsState) : MetricsState :=
  { m with cacheMisses := m.cacheMisses + 1 }

/-- Python `MetricsCollector.record_circuit_breaker_state_change`. -/
def MetricsState.recordStateChange (m : MetricsState) (now : ℚ)
    (service oldState newState : String) : MetricsState :=
  { m with stateChanges := m.stateChanges ++ [(now, service, oldState, newState)] }

/-- Python `MetricsCollector.reset`: clear all data and restamp the start time
with the current clock reading. -/
def MetricsState.reset (m : MetricsState) (now : ℚ) : MetricsState :=
  ⟨m.windowSeconds, [], [], 0, 0, [], [], [], now⟩

/-- The errors/total pair `get_error_rate` reads, scoped to one operation
or summed over all. -/
def MetricsState.scopeTotals (m : MetricsState) (op? : Option String) : Nat × Nat :=
  match op? with
  | some op => (getCount m.errorCounts op, getCount m.requestCounts op)
  | none => (sumCounts m.errorCounts, sumCounts m.requestCounts)

/-- Python `MetricsCollector.get_error_rate`: `errors / total if total > 0 else 0.0`. -/
def MetricsState.getErrorRate (m : MetricsState) (op? : Option String) : ℚ :=
  if 0 < (m.scopeTotals op?).2 then
    ((m.scopeTotals op?).1 : ℚ) / ((m.scopeTotals op?).2 : ℚ)
  else 0

/-- Python `MetricsCollector.get_cache_hit_rate`. -/
def MetricsState.getCacheHitRate (m : MetricsState) : ℚ :=
  if 0 < m.cacheHits + m.cacheMisses then
    (m.cacheHits : ℚ) / ((m.cacheHits + m.cacheMisses : Nat) : ℚ)
  else 0

/-- The sample list `get_p95_latency` aggregates: one operation's ring
buffer, or all of them concatenated in dict order. -/
def MetricsState.p95Samples (m : MetricsState) (op? : Option String) : List ℚ :=
  match op? with
  | some op => getSamples m.latencySamples op
  | none => (m.latencySamples.map Prod.snd).flatten

/-- Python `MetricsCollector.get_p95_latency`: 0 on no samples, else the sorted
sample at nearest-rank index `int(len * 0.95)` (exact-rational semantics). -/
def MetricsState.getP95Latency (m : MetricsState) (op? : Option String) : ℚ :=
  if (m.p95Samples op?).isEmpty then 0
  else
    (List.insertionSort (· ≤ ·) (m.p95Samples op?)).getD
      ((List.insertionSort (· ≤ ·) (m.p95Samples op?)).length * 19 / 20) 0

/-- The message of the cache-effectiveness entry of `check_health`. -/
inductive CacheCheckMessage where
  | hitRate (rate : ℚ)
  | insufficientData
  deriving DecidableEq, Repr

/-- The cache-effectiveness entry of `check_health` (status + message). -/
structure CacheCheck where
  status : String
  message : CacheCheckMessage
  deriving DecidableEq, Repr

/-- The `checks["cache"]` computation in `MetricsCollector.check_health`:
evaluated only when `total_cache_requests > 10`, else reported healthy
with the insufficient-data message. -/
def MetricsState.cacheHealthCheck (m : MetricsState) : CacheCheck :=
  if 10 < m.cacheHits + m.cacheMisses then
    { status := if 1/2 < m.getCacheHitRate then "healthy" else "degraded"
      message := .hitRate m.getCacheHitRate }
  else
    { status := "healthy", message := .insufficientData }

/-- One externally visible recording operation on the collector. -/
inductive MetricsOp where
  | recordRequest (op : String) (latencyMs : ℚ) (error : Bool) (now : ℚ)
  | recordCacheHit
  | recordCacheMiss
  | recordStateChange (now : ℚ) (service oldState newState : String)
  | reset (now : ℚ)

/-- Apply one recording operation. -/
def MetricsState.applyOp (m : MetricsState) : MetricsOp → MetricsState
  | .recordRequest op lat err now => m.recordRequest op lat err now
  | .recordCacheHit => m.recordCacheHit
  | .recordCacheMiss => m.recordCacheMiss
  | .recordStateChange now s o n => m.recordStateChange now s o n
  | .reset now => m.reset now

/-- Run a sequence of recording operations. -/
def MetricsState.run (m : MetricsState) : List MetricsOp → MetricsState
  | [] => m
  | op :: ops => (m.applyOp op).run ops

/-- Error counters never exceed request counters, per key and in total. -/
abbrev MetricsState.ErrBound (m : MetricsState) : Prop :=
  (∀ k, getCount m.errorCounts k ≤ getCount m.requestCounts k) ∧
  sumCounts m.errorCounts ≤ sumCounts m.requestCounts

lemma getCount_bump (l : List (String × Nat)) (k k' : String) :
    getCount (bump l k) k' = getCount l k' + if k' = k then 1 else 0 := by
  induction l with
  | nil =>
    show (if k' = k then 1 else 0) = 0 + if k' = k then 1 else 0
    split_ifs <;> rfl
  | cons p rest ih =>
    obtain ⟨a, v⟩ := p
    show getCount (if k = a then (a, v + 1) :: rest else (a, v) :: bump rest k) k'
      = (if k' = a then v else getCount rest k') + if k' = k then 1 else 0
    by_cases hka : k = a
    · rw [if_pos hka]
      show (if k' = a then v + 1 else getCount rest k')
        = (if k' = a then v else getCount rest k') + if k' = k then 1 else 0
      by_cases hk'a : k' = a
      · rw [if_pos hk'a, if_pos hk'a, if_pos (hk'a.trans hka.symm)]
      · rw [if_neg hk'a, if_neg hk'a, if_neg (fun h => hk'a (h.trans hka))]
        omega
    · rw [if_neg hka]
      show (if k' = a then v else getCount (bump rest k) k')
        = (if k' = a then v else getCount rest k') + if k' = k then 1 else 0
      by_cases hk'a : k' = a
      · rw [if_pos hk'a, if_pos hk'a, if_neg (fun h => hka (h.symm.trans hk'a))]
        omega
      · rw [if_neg hk'a, if_neg hk'a, ih]

lemma sumCounts_bump (l : List (String × Nat)) (k : String) :
    sumCounts (bump l k) = sumCounts l + 1 := by
  induction l with
  | nil => rfl
  | cons p rest ih =>
    obtain ⟨a, v⟩ := p
    show sumCounts (if k = a then (a, v + 1) :: rest else (a, v) :: bump rest k)
      = sumCounts ((a, v) :: rest) + 1
    by_cases hka : k = a
    · rw [if_pos hka]
      show v + 1 + sumCounts rest = v + sumCounts rest + 1
      omega
    · rw [if_neg hka]
      show v + sumCounts (bump rest k) = v + sumCounts rest + 1
      rw [ih]
      omega

lemma errBound_applyOp {m : MetricsState} (o : MetricsOp)
    (h : m.ErrBound) : (m.applyOp o).ErrBound := by
  obtain ⟨hk, hs⟩ := h
  cases o with
  | recordRequest op lat err now =>
    cases err with
    | false =>
      refine ⟨fun k => ?_, ?_⟩
      · show getCount m.errorCounts k ≤ getCount (bump m.requestCounts op) k
        rw [getCount_bump]
        exact Nat.le_add_right_of_le (hk k)
      · show sumCounts m.errorCounts ≤ sumCounts (bump m.requestCounts op)
        rw [sumCounts_bump]
        exact Nat.le_add_right_of_le hs
    | true =>
      refine ⟨fun k => ?_, ?_⟩
      · show getCount (bump m.errorCounts op) k ≤ getCount (bump m.requestCounts op) k
        rw [getCount_bump, getCount_bump]
        exact Nat.add_le_add_right (hk k) _
      · show sumCounts (bump m.errorCounts op) ≤ sumCounts (bump m.requestCounts op)
        rw [sumCounts_bump, sumCounts_bump]
        exact Nat.add_le_add_right hs 1
  | recordCacheHit => exact ⟨hk, hs⟩
  | recordCacheMiss => exact ⟨hk, hs⟩
  | recordStateChange now s o n => exact ⟨hk, hs⟩
  | reset now => exact ⟨fun k => Nat.le_refl 0, Nat.le_refl 0⟩

lemma errBound_run {m : MetricsState} (ops : List MetricsOp)
    (h : m.ErrBound) : (m.run ops).ErrBound := by
  induction ops generalizing m with
  | nil => exact h
  | cons o ops ih => exact ih (errBound_applyOp o h)

lemma errBound_init (w t0 : ℚ) : (MetricsState.init w t0).ErrBound :=
  ⟨fun _ => Nat.le_refl 0, Nat.le_refl 0⟩

/-- C9: on any collector reachable by recording operations,
`get_error_rate` is `errors/total` when the scoped total is positive and
exactly 0 when it is zero, and always lies in `[0, 1]` — both scoped to a
single operation and summed across all operations. -/
theorem metrics_error_rate_in_unit_interval (w t0 : ℚ) (ops : List MetricsOp)
    (op? : Option String) :
    0 ≤ ((MetricsState.init w t0).run ops).getErrorRate op? ∧
    ((MetricsState.init w t0).run ops).getErrorRate op? ≤ 1 ∧
    ((((MetricsState.init w t0).run ops).scopeTotals op?).2 = 0 →
      ((MetricsState.init w t0).run ops).getErrorRate op? = 0) ∧
    (0 < (((MetricsState.init w t0).run ops).scopeTotals op?).2 →
      ((MetricsState.init w t0).run ops).getErrorRate op?
        = ((((MetricsState.init w t0).run ops).scopeTotals op?).1 : ℚ)
          / ((((MetricsState.init w t0).run ops).scopeTotals op?).2 : ℚ)) := by
  have hb : ((MetricsState.init w t0).run ops).ErrBound :=
    errBound_run ops (errBound_init w t0)
  have hscope : (((MetricsState.init w t0).run ops).scopeTotals op?).1
      ≤ (((MetricsState.init w t0).run ops).scopeTotals op?).2 := by
    cases op? with
    | some op => exact hb.1 op
    | none => exact hb.2
  unfold MetricsState.getErrorRate
  split_ifs with hpos
  · have h2 : (0 : ℚ) < ((((MetricsState.init w t0).run ops).scopeTotals op?).2 : ℚ) := by
      exact_mod_cast hpos
    refine ⟨div_nonneg (by positivity) h2.le, ?_, fun h0 => by omega, fun _ => rfl⟩
    rw [div_le_one h2]
    exact_mod_cast hscope
  · exact ⟨le_refl 0, by norm_num, fun _ => rfl, fun hp => absurd hp hpos⟩

/-- C9 witness: ten requests, two of them errors, give a positive total and
rate `errors/total`. -/
theorem metrics_error_rate_witness :
    0 < (((MetricsState.init 300 0).run
        (List.replicate 8 (MetricsOp.recordRequest "op" 5 false 1)
          ++ List.replicate 2 (MetricsOp.recordRequest "op" 5 true 1))).scopeTotals
            none).2 ∧
    ((MetricsState.init 300 0).run
        (List.replicate 8 (MetricsOp.recordRequest "op" 5 false 1)
          ++ List.replicate 2 (MetricsOp.recordRequest "op" 5 true 1))).getErrorRate none
      = ((((MetricsState.init 300 0).run
          (List.replicate 8 (MetricsOp.recordRequest "op" 5 false 1)
            ++ List.replicate 2 (MetricsOp.recordRequest "op" 5 true 1))).scopeTotals
              none).1 : ℚ)
        / ((((MetricsState.init 300 0).run
          (List.replicate 8 (MetricsOp.recordRequest "op" 5 false 1)
            ++ List.replicate 2 (MetricsOp.recordRequest "op" 5 true 1))).scopeTotals
              none).2 : ℚ) :=
  ⟨by decide,
   (metrics_error_rate_in_unit_interval 300 0
      (List.replicate 8 (MetricsOp.recordRequest "op" 5 false 1)
        ++ List.replicate 2 (MetricsOp.recordRequest "op" 5 true 1)) none).2.2.2
      (by decide)⟩

/-- C7: `get_p95_latency` is nearest-rank — 0 on no samples; otherwise it
returns the element at index `floor(0.95 * n)` of the ascending sort of
the `n` samples (the index is in bounds). -/
theorem metrics_p95_nearest_rank (m : MetricsState) (op? : Option String) :
    (m.p95Samples op? = [] → m.getP95Latency op? = 0) ∧
    (m.p95Samples op? ≠ [] →
      (List.insertionSort (· ≤ ·) (m.p95Samples op?)).Perm (m.p95Samples op?) ∧
      (List.insertionSort (· ≤ ·) (m.p95Samples op?)).Sorted (· ≤ ·) ∧
      (m.p95Samples op?).length * 19 / 20
        = ⌊(0.95 : ℚ) * ((m.p95Samples op?).length : ℚ)⌋₊ ∧
      (m.p95Samples op?).length * 19 / 20 < (m.p95Samples op?).length ∧
      m.getP95Latency op?
        = (List.insertionSort (· ≤ ·) (m.p95Samples op?)).getD
            ((m.p95Samples op?).length * 19 / 20) 0) := by
  constructor
  · intro h
    unfold MetricsState.getP95Latency
    rw [if_pos (by simp [h])]
  · intro h
    have hlen : 0 < (m.p95Samples op?).length := List.length_pos.mpr h
    refine ⟨List.perm_insertionSort _ _, List.sorted_insertionSort _ _, ?_, ?_, ?_⟩
    · have h95 : (0.95 : ℚ) * ((m.p95Samples op?).length : ℚ)
          = ((19 * (m.p95Samples op?).length : ℕ) : ℚ) / ((20 : ℕ) : ℚ) := by
        rw [show (0.95 : ℚ) = 19 / 20 by norm_num]
        push_cast
        ring
      rw [h95, Nat.floor_div_eq_div, Nat.mul_comm]
    · have h1 : (m.p95Samples op?).length * 19 < (m.p95Samples op?).length * 20 := by
        omega
      omega
    · unfold MetricsState.getP95Latency
      rw [if_neg (by simpa using h), List.length_insertionSort]

/-- C7 witness: three samples `[3, 1, 2]` are non-empty and the p95 value
is the sorted element at index `floor(0.95 * 3) = 2`. -/
theorem metrics_p95_nearest_rank_witness :
    ({ MetricsState.init 300 0 with
        latencySamples := [("op", [3, 1, 2])] }).p95Samples none ≠ [] ∧
    ({ MetricsState.init 300 0 with
        latencySamples := [("op", [3, 1, 2])] }).getP95Latency none
      = (List.insertionSort (· ≤ ·)
          (({ MetricsState.init 300 0 with
              latencySamples := [("op", [3, 1, 2])] }).p95Samples none)).getD
        ((({ MetricsState.init 300 0 with
            latencySamples := [("op", [3, 1, 2])] }).p95Samples none).length * 19 / 20) 0 :=
  have hne : ({ MetricsState.init 300 0 with
      latencySamples := [("op", [3, 1, 2])] }).p95Samples none ≠ [] := by
    simp [MetricsState.p95Samples, MetricsState.init]
  ⟨hne, ((metrics_p95_nearest_rank _ none).2 hne).2.2.2.2⟩

/-- C1 counterexample: at exactly 10 recorded cache requests (hits 10,
misses 0) the code reports the insufficient-data cache check, so the
cache-effectiveness check is not evaluated at "at least 10" requests as
claimed. -/
theorem cache_health_at_least_ten_counterexample :
    ¬ (∀ m : MetricsState, 10 ≤ m.cacheHits + m.cacheMisses →
        m.cacheHealthCheck.message ≠ CacheCheckMessage.insufficientData) := by
  intro h
  exact h { MetricsState.init 300 0 with cacheHits := 10 } (by decide) (by decide)

/-- C1 (amended): `check_health` evaluates the cache-effectiveness check
(healthy iff hit rate `> 0.5`, i.e. iff `2 * hits > hits + misses`, else
degraded) exactly when strictly more than 10 cache requests have been
recorded; with 10 or fewer it reports status healthy with the
insufficient-data message. -/
theorem cache_health_threshold (m : MetricsState) :
    (10 < m.cacheHits + m.cacheMisses →
      m.cacheHealthCheck
        = { status := if 1/2 < m.getCacheHitRate then "healthy" else "degraded"
            message := .hitRate m.getCacheHitRate } ∧
      ((1/2 : ℚ) < m.getCacheHitRate ↔ m.cacheHits + m.cacheMisses < 2 * m.cacheHits)) ∧
    (m.cacheHits + m.cacheMisses ≤ 10 →
      m.cacheHealthCheck = { status := "healthy", message := .insufficientData }) := by
  constructor
  · intro h10
    constructor
    · unfold MetricsState.cacheHealthCheck
      rw [if_pos h10]
    · have htQ : (0 : ℚ) < ((m.cacheHits + m.cacheMisses : ℕ) : ℚ) := by
        exact_mod_cast Nat.lt_of_lt_of_le (by norm_num) (Nat.le_of_lt h10)
      unfold MetricsState.getCacheHitRate
      rw [if_pos (by omega), lt_div_iff₀ htQ]
      constructor
      · intro hx
        have hq : ((m.cacheHits + m.cacheMisses : ℕ) : ℚ) < ((2 * m.cacheHits : ℕ) : ℚ) := by
          push_cast at hx ⊢
          linarith
        exact_mod_cast hq
      · intro hx
        have hq : ((m.cacheHits + m.cacheMisses : ℕ) : ℚ) < ((2 * m.cacheHits : ℕ) : ℚ) := by
          exact_mod_cast hx
        push_cast at hq ⊢
        linarith
  · intro h10
    unfold MetricsState.cacheHealthCheck
    rw [if_neg (by omega)]

/-- C1 witness: 3 hits and 2 misses (5 ≤ 10) give the insufficient-data
report; hypothesis instances discharged concretely. -/
theorem cache_health_threshold_witness :
    ({ MetricsState.init 300 0 with cacheHits := 3, cacheMisses := 2 }).cacheHealthCheck
      = { status := "healthy", message := CacheCheckMessage.insufficientData } :=
  (cache_health_threshold _).2 (by decide)

/-! ## Reset idempotence across the four components -/

/-- Modelled from the spec: the source `RateLimiter`
(src/core/rate_limiter.py) defines no reset method — only `check` — yet
the spec's idempotence property quantifies over all four components. Per
the spec's data model ("all state resets to initial"), a reset clears
every per-actor bucket, restoring the freshly constructed state. -/
def RateLimiter.reset (rl : RateLimiter) : RateLimiter :=
  { rl with buckets := fun _ => [] }

/-- C8 counterexample: `MetricsCollector.reset` restamps
`_start_time = time.time()`, so two consecutive resets whose clock
readings differ (here 0 then 1) leave different states — the claim's
"identical state both times" fails for the metrics collector. -/
theorem reset_idempotence_counterexample :
    ¬ (((MetricsState.init 300 0).reset 0).reset 1 = (MetricsState.init 300 0).reset 0) := by
  intro h
  have h' := congrArg MetricsState.startTime h
  norm_num [MetricsState.reset] at h'

/-- C8 (amended): reset is exactly idempotent for the TTL cache (`clear`),
the (spec-modelled) rate limiter reset and the circuit breaker `reset`;
for the metrics collector a second reset yields precisely the state a
single reset at its clock reading would, so all metric data is identical
both times and the full states coincide exactly when both resets observe
the same clock reading — only `_start_time` tracks the latest reset. -/
theorem reset_idempotent :
    (∀ (α : Type) (c : SimpleCache α), c.clear.clear = c.clear) ∧
    (∀ rl : RateLimiter, rl.reset.reset = rl.reset) ∧
    (∀ cb : CircuitBreaker, cb.reset.reset = cb.reset) ∧
    (∀ (m : MetricsState) (t1 t2 : ℚ), (m.reset t1).reset t2 = m.reset t2) ∧
    (∀ (m : MetricsState) (t : ℚ), (m.reset t).reset t = m.reset t) :=
  ⟨fun _ _ => rfl, fun _ => rfl, fun _ => rfl, fun _ _ _ => rfl, fun _ _ => rfl⟩

end NEightNMcp
